import Mathlib

/-!
Shallow embedding of the NPK deployment pre-flight pipeline
(`index.js`, function `generate`).

The pipeline reads a settings document, validates its keys against a fixed
allow-list, optionally resolves a Route53 hosted zone, enumerates provider
regions, fans out per-region service-quota probes, aggregates a per-region
quota table together with the global maximum observed quota, gates on that
maximum, fans out per-region availability-zone probes for the regions that
kept a quota entry, checks the EC2 spot service-linked role, and finally
assembles the `validatedSettings` snapshot handed to the template renderer.

Remote calls are modelled by an `Env` oracle; the probes the pipeline issues
are recorded in an event trace so that claims about which probes are (not)
issued can be stated.  JS numbers carrying quota values are modelled as
rationals; JS objects are modelled as association lists in insertion order
(assignment overwrites in place, fresh keys append), matching the observable
key-set/lookup behaviour of the source.
-/

set_option autoImplicit false

namespace NPK

/-- One row of a `listServiceQuotas` response (`data.Quotas` element). -/
structure QuotaRow where
  QuotaCode : String
  Value : ℚ
deriving DecidableEq, Repr

/-- One element of a `describeRegions` response (`regions.Regions` element). -/
structure RegionInfo where
  RegionName : String
  OptInStatus : String
deriving DecidableEq, Repr

/-- One element of a `describeAvailabilityZones` response. -/
structure AZInfo where
  ZoneName : String
  State : String
deriving DecidableEq, Repr

/-- The environment oracle: the settings document read from
`npk-settings.json` and the responses the AWS control plane would give to
each remote call made by `generate`. -/
structure Env where
  settings : List (String × String)
  getHostedZone : String → Option String
  describeRegions : Option (List RegionInfo)
  listServiceQuotas : String → List QuotaRow
  describeAvailabilityZones : String → List AZInfo
  getRoleOk : Bool

/-- A remote capability probe issued by the pipeline, recorded in order. -/
inductive Probe where
  | getHostedZone (id : String)
  | describeRegions
  | listServiceQuotas (region : String)
  | describeAvailabilityZones (region : String)
  | getRole (name : String)
deriving DecidableEq, Repr

/-- The fatal outcomes of `generate` (the `return false` paths that precede
the snapshot export). -/
inductive Fail where
  | invalidSettings (keys : List String)
  | zoneLookupFailed
  | regionListFailed
  | zeroQuota
deriving DecidableEq, Repr

/-- The snapshot `validatedSettings` assembled by `generate` and exported to
the template renderer. -/
structure ValidatedSettings where
  dnsBaseName : Option String
  providerRegions : List String
  quotas : List (String × List (String × ℚ))
  regions : List (String × List String)
  spotslr_exists : Bool
deriving DecidableEq, Repr

/-- The allow-list array `allowedSettings` of `index.js`. -/
def allowedSettings : List String :=
  ["campaign_data_ttl", "campaign_max_price", "georestrictions", "route53Zone",
   "awsProfile", "criticalEventsSMS", "adminEmail", "sAMLMetadataFile",
   "sAMLMetadataUrl", "primaryRegion"]

/-- The keys of the settings document that are not on the allow-list:
`Object.keys(settings).filter(e => allowedSettings.indexOf(e) < 0)`. -/
def badSettingsOf (settings : List (String × String)) : List String :=
  (settings.map Prod.fst).filter (fun k => !(allowedSettings.contains k))

/-- JS `s.slice(0, -1)`: drop the final character (identity on `""`). -/
def sliceDropLast (s : String) : String :=
  String.mk s.data.dropLast

/-- The Route53 step: when `settings.route53Zone` is truthy, look the zone up
and store `zone.HostedZone.Name.slice(0, -1)`; a lookup error is fatal.
Returns the optional `dnsBaseName` together with the probes issued. -/
def dnsStep (env : Env) : Except Fail (Option String) × List Probe :=
  match env.settings.lookup "route53Zone" with
  | none => (Except.ok none, [])
  | some z =>
    if z = "" then (Except.ok none, [])
    else
      match env.getHostedZone z with
      | none => (Except.error Fail.zoneLookupFailed, [Probe.getHostedZone z])
      | some name => (Except.ok (some (sliceDropLast name)), [Probe.getHostedZone z])

/-- The opt-in statuses kept by the region filter in `index.js`. -/
def optInOk : List String := ["opt-in-not-required", "opted-in"]

/-- The filter `regions.Regions.filter(r => [...].indexOf(r.OptInStatus) > -1)
.map(r => r.RegionName)`. -/
def enumerate (rs : List RegionInfo) : List String :=
  (rs.filter (fun r => optInOk.contains r.OptInStatus)).map RegionInfo.RegionName

/-- The region-enumeration step: one `describeRegions` probe; a failure is
fatal to the pipeline. -/
def regionStep (env : Env) : Except Fail (List String) × List Probe :=
  match env.describeRegions with
  | none => (Except.error Fail.regionListFailed, [Probe.describeRegions])
  | some rs => (Except.ok (enumerate rs), [Probe.describeRegions])

/-- The quota codes of the family catalog, deduplicated in first-occurrence
order: `Object.keys(families).reduce(...)`. -/
def quotaCodesOf (families : List (String × String)) : List String :=
  families.foldl (fun codes f => if codes.contains f.2 then codes else codes ++ [f.2]) []

/-- The quota-row filter of `index.js`:
`quotaCodes.indexOf(q.QuotaCode) > -1 && q.Value > 0`. -/
def tracked (quotaCodes : List String) (q : QuotaRow) : Bool :=
  quotaCodes.contains q.QuotaCode && decide (0 < q.Value)

/-- The filter `data.Quotas.filter(q => quotaCodes.indexOf(q.QuotaCode) > -1 && q.Value > 0)`. -/
def filteredRows (quotaCodes : List String) (rows : List QuotaRow) : List QuotaRow :=
  rows.filter (tracked quotaCodes)

/-- JS object assignment on an association list: overwrite in
place when the key exists, append otherwise. -/
def setKey (m : List (String × ℚ)) (k : String) (v : ℚ) : List (String × ℚ) :=
  if m.any (fun p => p.1 == k) then
    m.map (fun p => if p.1 == k then (k, v) else p)
  else m ++ [(k, v)]

/-- The per-region sub-map built by
`regionQuotas[region][q.QuotaCode] = q.Value` over the filtered rows. -/
def regionSubmap (quotaCodes : List String) (rows : List QuotaRow) : List (String × ℚ) :=
  (filteredRows quotaCodes rows).foldl (fun m q => setKey m q.QuotaCode q.Value) []

/-- The object `regionQuotas` after all quota probes settle: a region gains a
key (`regionQuotas[region] ??= {}`) exactly when at least one of its response
rows passes the tracked/positive filter.  Settlement order is modelled as the
region-list order; the key set and per-key contents do not depend on it. -/
def buildRegionQuotas (quotaCodes : List String)
    (responses : List (String × List QuotaRow)) :
    List (String × List (String × ℚ)) :=
  responses.foldl
    (fun acc resp =>
      if (filteredRows quotaCodes resp.2).isEmpty then acc
      else acc ++ [(resp.1, regionSubmap quotaCodes resp.2)]) []

/-- The bump `maxQuota = (q.Value > maxQuota) ? q.Value : maxQuota`. -/
def bumpMax (mx : ℚ) (q : QuotaRow) : ℚ :=
  if mx < q.Value then q.Value else mx

/-- The accumulator `maxQuota` after all quota probes settle: it starts at 0
and is bumped by every filtered row of every region's response. -/
def computeMaxQuota (quotaCodes : List String)
    (responses : List (String × List QuotaRow)) : ℚ :=
  responses.foldl (fun mx resp => (filteredRows quotaCodes resp.2).foldl bumpMax mx) 0

/-- Pair each region with its quota-probe response. -/
def quotaResponses (env : Env) (regions : List String) : List (String × List QuotaRow) :=
  regions.map (fun r => (r, env.listServiceQuotas r))

/-- The filter `data.AvailabilityZones.filter(a => a.State == "available")
.map(a => a.ZoneName)` for one region. -/
def azList (env : Env) (region : String) : List String :=
  ((env.describeAvailabilityZones region).filter (fun a => a.State == "available")).map
    AZInfo.ZoneName

/-- The maximum of a list of rationals under the pipeline's bump discipline,
starting from 0 (the value `maxQuota` is initialised to). -/
def listMax (l : List ℚ) : ℚ :=
  l.foldl (fun mx v => if mx < v then v else mx) 0

/-- All quota values recorded in a quota table, in order. -/
def tableValues (t : List (String × List (String × ℚ))) : List ℚ :=
  (t.map (fun p => p.2.map Prod.snd)).flatten

/-- The pipeline `generate` of `index.js`, from settings validation to the
snapshot export, returning the outcome together with the trace of remote
probes issued.  The template render/apply sink that consumes a successful
snapshot is external and out of scope. -/
def generate (families : List (String × String)) (env : Env) :
    Except Fail ValidatedSettings × List Probe :=
  if badSettingsOf env.settings = [] then
    match dnsStep env with
    | (Except.error f, tr1) => (Except.error f, tr1)
    | (Except.ok dnsBase, tr1) =>
      match regionStep env with
      | (Except.error f, tr2) => (Except.error f, tr1 ++ tr2)
      | (Except.ok regions, tr2) =>
        let quotaCodes := quotaCodesOf families
        let responses := quotaResponses env regions
        let tr3 := regions.map Probe.listServiceQuotas
        if computeMaxQuota quotaCodes responses = 0 then
          (Except.error Fail.zeroQuota, tr1 ++ tr2 ++ tr3)
        else
          let regionQuotas := buildRegionQuotas quotaCodes responses
          let azs := regionQuotas.map (fun p => (p.1, azList env p.1))
          let tr4 := regionQuotas.map (fun p => Probe.describeAvailabilityZones p.1)
          (Except.ok
            { dnsBaseName := dnsBase
              providerRegions := regions
              quotas := regionQuotas
              regions := azs
              spotslr_exists := env.getRoleOk },
           tr1 ++ tr2 ++ tr3 ++ tr4 ++ [Probe.getRole "AWSServiceRoleForEC2Spot"])
  else
    (Except.error (Fail.invalidSettings (badSettingsOf env.settings)), [])

/-! ### Association-list lemmas for the quota sub-maps -/

lemma setKey_of_not_mem (m : List (String × ℚ)) (k : String) (v : ℚ)
    (h : ∀ p ∈ m, p.1 ≠ k) : setKey m k v = m ++ [(k, v)] := by
  unfold setKey
  rw [if_neg]
  simp only [List.any_eq_true, beq_iff_eq, not_exists, not_and]
  exact h

lemma mem_setKey {m : List (String × ℚ)} {k : String} {v : ℚ} {e : String × ℚ}
    (h : e ∈ setKey m k v) : e ∈ m ∨ e = (k, v) := by
  unfold setKey at h
  split at h
  · rcases List.mem_map.mp h with ⟨p, hp, he⟩
    by_cases hk : p.1 = k
    · right
      simp only [hk, beq_self_eq_true, if_true] at he
      exact he.symm
    · left
      rw [if_neg (by simpa using hk)] at he
      exact he ▸ hp
  · rcases List.mem_append.mp h with h | h
    · exact Or.inl h
    · right
      simpa using h

lemma mem_foldl_setKey {rows : List QuotaRow} {m : List (String × ℚ)} {e : String × ℚ}
    (h : e ∈ rows.foldl (fun m q => setKey m q.QuotaCode q.Value) m) :
    e ∈ m ∨ ∃ q ∈ rows, e = (q.QuotaCode, q.Value) := by
  induction rows generalizing m with
  | nil => exact Or.inl h
  | cons q rows ih =>
    rcases ih (by simpa using h) with h' | ⟨q', hq', he⟩
    · rcases mem_setKey h' with h'' | h''
      · exact Or.inl h''
      · exact Or.inr ⟨q, List.mem_cons_self q rows, h''⟩
    · exact Or.inr ⟨q', List.mem_cons_of_mem _ hq', he⟩

lemma foldl_setKey_eq_append (rows : List QuotaRow) (m : List (String × ℚ))
    (hnd : (rows.map QuotaRow.QuotaCode).Nodup)
    (hfresh : ∀ q ∈ rows, ∀ p ∈ m, p.1 ≠ q.QuotaCode) :
    rows.foldl (fun m q => setKey m q.QuotaCode q.Value) m
      = m ++ rows.map (fun q => (q.QuotaCode, q.Value)) := by
  induction rows generalizing m with
  | nil => simp
  | cons q rows ih =>
    obtain ⟨hhead, htail⟩ :
        (∀ x ∈ rows, ¬x.QuotaCode = q.QuotaCode) ∧
          (rows.map QuotaRow.QuotaCode).Nodup := by
      simpa using hnd
    simp only [List.foldl_cons, List.map_cons]
    rw [setKey_of_not_mem _ _ _ (fun p hp => hfresh q (List.mem_cons_self q rows) p hp)]
    rw [ih (m ++ [(q.QuotaCode, q.Value)]) htail]
    · simp
    · intro q' hq' p hp
      rcases List.mem_append.mp hp with hp | hp
      · exact hfresh q' (List.mem_cons_of_mem _ hq') p hp
      · simp only [List.mem_singleton] at hp
        subst hp
        intro e
        exact hhead q' hq' e.symm

lemma regionSubmap_eq (qc : List String) (rows : List QuotaRow)
    (hnd : ((filteredRows qc rows).map QuotaRow.QuotaCode).Nodup) :
    regionSubmap qc rows
      = (filteredRows qc rows).map (fun q => (q.QuotaCode, q.Value)) := by
  unfold regionSubmap
  rw [foldl_setKey_eq_append _ _ hnd (by intro q _ p hp; simp at hp)]
  simp

lemma mem_regionSubmap {qc : List String} {rows : List QuotaRow} {e : String × ℚ}
    (h : e ∈ regionSubmap qc rows) :
    ∃ q ∈ filteredRows qc rows, e = (q.QuotaCode, q.Value) := by
  rcases mem_foldl_setKey h with h' | h'
  · simp at h'
  · exact h'

/-! ### Characterisation of the aggregated quota table -/

lemma buildRegionQuotas_go (qc : List String) (responses : List (String × List QuotaRow))
    (acc : List (String × List (String × ℚ))) :
    responses.foldl
      (fun acc resp =>
        if (filteredRows qc resp.2).isEmpty then acc
        else acc ++ [(resp.1, regionSubmap qc resp.2)]) acc
      = acc ++ (responses.filter (fun resp => !(filteredRows qc resp.2).isEmpty)).map
          (fun resp => (resp.1, regionSubmap qc resp.2)) := by
  induction responses generalizing acc with
  | nil => simp
  | cons r rs ih =>
    simp only [List.foldl_cons, List.filter_cons]
    cases h : (filteredRows qc r.2).isEmpty with
    | true =>
      rw [if_pos rfl, Bool.not_true, if_neg Bool.false_ne_true]
      exact ih acc
    | false =>
      rw [if_neg Bool.false_ne_true, Bool.not_false, if_pos rfl]
      rw [ih (acc ++ [(r.1, regionSubmap qc r.2)])]
      simp only [List.append_assoc, List.singleton_append, List.map_cons]

lemma buildRegionQuotas_eq (qc : List String) (responses : List (String × List QuotaRow)) :
    buildRegionQuotas qc responses
      = (responses.filter (fun resp => !(filteredRows qc resp.2).isEmpty)).map
          (fun resp => (resp.1, regionSubmap qc resp.2)) := by
  unfold buildRegionQuotas
  rw [buildRegionQuotas_go qc responses [], List.nil_append]

/-! ### The maximum accumulator as a fold over all recorded values -/

lemma foldl_bump_flatten (ls : List (List ℚ)) (a : ℚ) :
    ls.foldl (fun mx l => l.foldl (fun mx v => if mx < v then v else mx) mx) a
      = ls.flatten.foldl (fun mx v => if mx < v then v else mx) a := by
  induction ls generalizing a with
  | nil => rfl
  | cons l ls ih => simp [List.foldl_append, ih]

lemma computeMaxQuota_eq (qc : List String) (responses : List (String × List QuotaRow)) :
    computeMaxQuota qc responses
      = listMax ((responses.map
          (fun resp => (filteredRows qc resp.2).map QuotaRow.Value)).flatten) := by
  have hfun :
      (fun (mx : ℚ) (resp : String × List QuotaRow) =>
          List.foldl bumpMax mx (filteredRows qc resp.2))
        = fun (mx : ℚ) (resp : String × List QuotaRow) =>
            List.foldl (fun mx v => if mx < v then v else mx) mx
              (List.map QuotaRow.Value (filteredRows qc resp.2)) := by
    funext mx resp
    rw [List.foldl_map]
    rfl
  unfold computeMaxQuota listMax
  rw [← foldl_bump_flatten, List.foldl_map, hfun]

lemma flatten_map_filter {α β : Type} (l : List α) (p : α → Bool) (f : α → List β)
    (hp : ∀ x, p x = false → f x = []) :
    ((l.filter p).map f).flatten = (l.map f).flatten := by
  induction l with
  | nil => rfl
  | cons x l ih =>
    cases h : p x with
    | true => simp [List.filter_cons, h, ih]
    | false => simp [List.filter_cons, h, hp x h, ih]

lemma tableValues_buildRegionQuotas (qc : List String)
    (responses : List (String × List QuotaRow))
    (hnd : ∀ resp ∈ responses, ((filteredRows qc resp.2).map QuotaRow.QuotaCode).Nodup) :
    tableValues (buildRegionQuotas qc responses)
      = (responses.map (fun resp => (filteredRows qc resp.2).map QuotaRow.Value)).flatten := by
  unfold tableValues
  rw [buildRegionQuotas_eq, List.map_map]
  have hcong : (responses.filter (fun resp => !(filteredRows qc resp.2).isEmpty)).map
        ((fun p => p.2.map Prod.snd) ∘ fun resp => (resp.1, regionSubmap qc resp.2))
      = (responses.filter (fun resp => !(filteredRows qc resp.2).isEmpty)).map
        (fun resp => (filteredRows qc resp.2).map QuotaRow.Value) := by
    apply List.map_congr_left
    intro resp hresp
    have := hnd resp (List.mem_of_mem_filter hresp)
    simp only [Function.comp]
    rw [regionSubmap_eq qc resp.2 this, List.map_map]
    rfl
  rw [hcong]
  apply flatten_map_filter
  intro resp h
  simp only [Bool.not_eq_false', List.isEmpty_iff] at h
  simp [h]

lemma mem_filteredRows {qc : List String} {rows : List QuotaRow} {q : QuotaRow} :
    q ∈ filteredRows qc rows ↔ q ∈ rows ∧ q.QuotaCode ∈ qc ∧ 0 < q.Value := by
  simp [filteredRows, List.mem_filter, tracked, List.elem_iff, and_assoc]

lemma filteredRows_ne_nil_iff {qc : List String} {rows : List QuotaRow} :
    filteredRows qc rows ≠ [] ↔ ∃ q ∈ rows, q.QuotaCode ∈ qc ∧ 0 < q.Value := by
  constructor
  · intro h
    obtain ⟨q, hq⟩ := List.exists_mem_of_ne_nil _ h
    exact ⟨q, mem_filteredRows.mp hq⟩
  · rintro ⟨q, hq, hcode, hval⟩
    intro h
    exact List.not_mem_nil q (h ▸ mem_filteredRows.mpr ⟨hq, hcode, hval⟩)

lemma mem_keys_buildRegionQuotas {qc : List String}
    {responses : List (String × List QuotaRow)} {r : String} :
    r ∈ (buildRegionQuotas qc responses).map Prod.fst ↔
      ∃ resp ∈ responses, resp.1 = r ∧ ∃ q ∈ resp.2, q.QuotaCode ∈ qc ∧ 0 < q.Value := by
  rw [buildRegionQuotas_eq, List.map_map]
  simp only [List.mem_map, List.mem_filter, Function.comp_apply,
    Bool.not_eq_false', Bool.not_eq_true', List.isEmpty_eq_false, List.isEmpty_iff]
  constructor
  · rintro ⟨resp, ⟨hmem, hne⟩, rfl⟩
    exact ⟨resp, hmem, rfl, filteredRows_ne_nil_iff.mp hne⟩
  · rintro ⟨resp, hmem, hr, hex⟩
    exact ⟨resp, ⟨hmem, filteredRows_ne_nil_iff.mpr hex⟩, hr⟩

lemma mem_quotaCodesOf_go (fam : List (String × String)) (acc : List String) (c : String) :
    c ∈ fam.foldl
        (fun codes f => if codes.contains f.2 then codes else codes ++ [f.2]) acc ↔
      c ∈ acc ∨ ∃ f ∈ fam, f.2 = c := by
  induction fam generalizing acc with
  | nil => simp
  | cons f fs ih =>
    simp only [List.foldl_cons, ih]
    by_cases h : acc.contains f.2
    · rw [if_pos h]
      have hf2 : f.2 ∈ acc := List.elem_iff.mp h
      constructor
      · rintro (hc | hex)
        · exact Or.inl hc
        · exact Or.inr ⟨_, List.mem_cons_of_mem _ hex.choose_spec.1, hex.choose_spec.2⟩
      · rintro (hc | ⟨g, hg, hgc⟩)
        · exact Or.inl hc
        · rcases List.mem_cons.mp hg with rfl | hg'
          · exact Or.inl (hgc ▸ hf2)
          · exact Or.inr ⟨g, hg', hgc⟩
    · rw [if_neg h]
      constructor
      · rintro (hc | hex)
        · rcases List.mem_append.mp hc with hc | hc
          · exact Or.inl hc
          · exact Or.inr ⟨f, List.mem_cons_self f fs, (List.mem_singleton.mp hc).symm⟩
        · exact Or.inr ⟨_, List.mem_cons_of_mem _ hex.choose_spec.1, hex.choose_spec.2⟩
      · rintro (hc | ⟨g, hg, hgc⟩)
        · exact Or.inl (List.mem_append.mpr (Or.inl hc))
        · rcases List.mem_cons.mp hg with rfl | hg'
          · exact Or.inl (List.mem_append.mpr (Or.inr (List.mem_singleton.mpr hgc.symm)))
          · exact Or.inr ⟨g, hg', hgc⟩

lemma mem_quotaCodesOf (fam : List (String × String)) (c : String) :
    c ∈ quotaCodesOf fam ↔ ∃ f ∈ fam, f.2 = c := by
  unfold quotaCodesOf
  rw [mem_quotaCodesOf_go]
  simp

lemma nodup_quotaCodesOf_go (fam : List (String × String)) (acc : List String)
    (hacc : acc.Nodup) :
    (fam.foldl
      (fun codes f => if codes.contains f.2 then codes else codes ++ [f.2]) acc).Nodup := by
  induction fam generalizing acc with
  | nil => exact hacc
  | cons f fs ih =>
    simp only [List.foldl_cons]
    by_cases h : acc.contains f.2
    · rw [if_pos h]
      exact ih acc hacc
    · rw [if_neg h]
      apply ih
      have hnotmem : f.2 ∉ acc := fun hm => h (List.elem_iff.mpr hm)
      simpa [List.nodup_append] using ⟨hacc, hnotmem⟩

lemma nodup_quotaCodesOf (fam : List (String × String)) : (quotaCodesOf fam).Nodup :=
  nodup_quotaCodesOf_go fam [] List.nodup_nil

/-- Claim C1. After all per-region quota probes settle, `maxQuota` equals the
maximum quota value recorded in the aggregated quota table (under the bump
discipline starting at 0), and it equals 0 when the table is empty.  The
hypothesis states that each region's response lists every tracked quota code
at most once, which is the shape of a `listServiceQuotas` response. -/
theorem maxQuota_eq_table_max (qc : List String)
    (responses : List (String × List QuotaRow))
    (hnd : ∀ resp ∈ responses, ((filteredRows qc resp.2).map QuotaRow.QuotaCode).Nodup) :
    computeMaxQuota qc responses
        = listMax (tableValues (buildRegionQuotas qc responses)) ∧
      (buildRegionQuotas qc responses = [] → computeMaxQuota qc responses = 0) := by
  have h1 : computeMaxQuota qc responses
      = listMax (tableValues (buildRegionQuotas qc responses)) := by
    rw [computeMaxQuota_eq, tableValues_buildRegionQuotas qc responses hnd]
  refine ⟨h1, fun hempty => ?_⟩
  rw [h1, hempty]
  rfl

/-- Witness for C1 at a concrete pair of regions: one region with two tracked
positive rows, an untracked row and a zero row, one region with nothing. -/
theorem maxQuota_eq_table_max_witness :
    computeMaxQuota ["L-417A", "L-3819"]
        [("us-east-1", [⟨"L-417A", 8⟩, ⟨"L-9999", 5⟩, ⟨"L-3819", 4⟩]), ("us-west-2", [])]
        = listMax (tableValues (buildRegionQuotas ["L-417A", "L-3819"]
            [("us-east-1", [⟨"L-417A", 8⟩, ⟨"L-9999", 5⟩, ⟨"L-3819", 4⟩]),
             ("us-west-2", [])])) ∧
      (buildRegionQuotas ["L-417A", "L-3819"]
          [("us-east-1", [⟨"L-417A", 8⟩, ⟨"L-9999", 5⟩, ⟨"L-3819", 4⟩]),
           ("us-west-2", [])] = [] →
        computeMaxQuota ["L-417A", "L-3819"]
          [("us-east-1", [⟨"L-417A", 8⟩, ⟨"L-9999", 5⟩, ⟨"L-3819", 4⟩]),
           ("us-west-2", [])] = 0) :=
  maxQuota_eq_table_max ["L-417A", "L-3819"]
    [("us-east-1", [⟨"L-417A", 8⟩, ⟨"L-9999", 5⟩, ⟨"L-3819", 4⟩]), ("us-west-2", [])]
    (by decide)

/-- Claim C7. The aggregated quota table records a region/code entry only for
response rows whose code is in the deduplicated catalog code set and whose
value is strictly positive, and a region appears as a key exactly when one of
its response rows passes that filter.  The first conjunct characterises the
deduplicated catalog code set itself. -/
theorem quotaTable_entries_tracked_positive (families : List (String × String))
    (responses : List (String × List QuotaRow)) :
    ((quotaCodesOf families).Nodup ∧
        ∀ c, c ∈ quotaCodesOf families ↔ ∃ f ∈ families, f.2 = c) ∧
      (∀ p ∈ buildRegionQuotas (quotaCodesOf families) responses, ∀ e ∈ p.2,
        e.1 ∈ quotaCodesOf families ∧ 0 < e.2 ∧
          ∃ resp ∈ responses, resp.1 = p.1 ∧
            ∃ q ∈ resp.2, q.QuotaCode = e.1 ∧ q.Value = e.2) ∧
      (∀ r, r ∈ (buildRegionQuotas (quotaCodesOf families) responses).map Prod.fst ↔
        ∃ resp ∈ responses, resp.1 = r ∧
          ∃ q ∈ resp.2, q.QuotaCode ∈ quotaCodesOf families ∧ 0 < q.Value) := by
  refine ⟨⟨nodup_quotaCodesOf families, mem_quotaCodesOf families⟩, ?_, ?_⟩
  · intro p hp e he
    rw [buildRegionQuotas_eq] at hp
    rcases List.mem_map.mp hp with ⟨resp, hresp, rfl⟩
    rcases mem_regionSubmap he with ⟨q, hq, rfl⟩
    rcases mem_filteredRows.mp hq with ⟨hqmem, hqcode, hqval⟩
    exact ⟨hqcode, hqval,
      resp, List.mem_of_mem_filter hresp, rfl, q, hqmem, rfl, rfl⟩
  · intro r
    exact mem_keys_buildRegionQuotas

/-! ### Reduction lemmas for the pipeline -/

lemma dnsStep_ok_some (env : Env) (z name : String)
    (hz : env.settings.lookup "route53Zone" = some z) (hz' : ¬z = "")
    (hname : env.getHostedZone z = some name) :
    dnsStep env = (Except.ok (some (sliceDropLast name)), [Probe.getHostedZone z]) := by
  simp only [dnsStep, hz]
  rw [if_neg hz']
  simp only [hname]

lemma dnsStep_trace_shape (env : Env) :
    (dnsStep env).2 = [] ∨ ∃ z, (dnsStep env).2 = [Probe.getHostedZone z] := by
  cases h : env.settings.lookup "route53Zone" with
  | none => exact Or.inl (by simp [dnsStep, h])
  | some z =>
    by_cases hz : z = ""
    · exact Or.inl (by simp [dnsStep, h, hz])
    · cases hname : env.getHostedZone z with
      | none => exact Or.inr ⟨z, by simp [dnsStep, h, hz, hname]⟩
      | some name => exact Or.inr ⟨z, by simp [dnsStep, h, hz, hname]⟩

lemma generate_ok (families : List (String × String)) (env : Env)
    (d : Option String) (tr1 : List Probe) (rs : List RegionInfo)
    (hbad : badSettingsOf env.settings = [])
    (hdns : dnsStep env = (Except.ok d, tr1))
    (hreg : env.describeRegions = some rs)
    (hq : ¬computeMaxQuota (quotaCodesOf families)
        (quotaResponses env (enumerate rs)) = 0) :
    generate families env =
      (Except.ok
        { dnsBaseName := d
          providerRegions := enumerate rs
          quotas := buildRegionQuotas (quotaCodesOf families)
            (quotaResponses env (enumerate rs))
          regions := (buildRegionQuotas (quotaCodesOf families)
            (quotaResponses env (enumerate rs))).map (fun p => (p.1, azList env p.1))
          spotslr_exists := env.getRoleOk },
       tr1 ++ [Probe.describeRegions]
         ++ (enumerate rs).map Probe.listServiceQuotas
         ++ (buildRegionQuotas (quotaCodesOf families)
              (quotaResponses env (enumerate rs))).map
              (fun p => Probe.describeAvailabilityZones p.1)
         ++ [Probe.getRole "AWSServiceRoleForEC2Spot"]) := by
  simp only [generate, regionStep, hbad, hdns, hreg, if_true]
  rw [if_neg hq]

lemma generate_zero (families : List (String × String)) (env : Env)
    (d : Option String) (tr1 : List Probe) (rs : List RegionInfo)
    (hbad : badSettingsOf env.settings = [])
    (hdns : dnsStep env = (Except.ok d, tr1))
    (hreg : env.describeRegions = some rs)
    (hq : computeMaxQuota (quotaCodesOf families)
        (quotaResponses env (enumerate rs)) = 0) :
    generate families env =
      (Except.error Fail.zeroQuota,
       tr1 ++ [Probe.describeRegions]
         ++ (enumerate rs).map Probe.listServiceQuotas) := by
  simp only [generate, regionStep, hbad, hdns, hreg, if_true]
  rw [if_pos hq]

lemma keys_buildRegionQuotas_quotaResponses (qc : List String) (env : Env)
    (regions : List String) :
    (buildRegionQuotas qc (quotaResponses env regions)).map Prod.fst
      = regions.filter
          (fun r => !(filteredRows qc (env.listServiceQuotas r)).isEmpty) := by
  rw [buildRegionQuotas_eq, List.map_map]
  unfold quotaResponses
  induction regions with
  | nil => rfl
  | cons r rest ih =>
    simp only [List.map_cons, List.filter_cons]
    cases h : (filteredRows qc (env.listServiceQuotas r)).isEmpty with
    | true =>
      rw [Bool.not_true, if_neg Bool.false_ne_true, if_neg Bool.false_ne_true]
      exact ih
    | false =>
      rw [Bool.not_false, if_pos rfl, if_pos rfl, List.map_cons]
      rw [ih]
      rfl

lemma sliceDropLast_append_dot (s : String) : sliceDropLast (s ++ ".") = s := by
  unfold sliceDropLast
  have hdata : (s ++ ".").data = s.data ++ ['.'] := by
    rw [String.data_append]
  rw [hdata, List.dropLast_concat]

/-- Claim C2. If `maxQuota` is 0 after quota aggregation, the pipeline fails
with the zero-quota outcome, no availability-zone probe is ever issued, and
no settings snapshot is produced. -/
theorem zeroQuota_stops_pipeline (families : List (String × String)) (env : Env)
    (d : Option String) (tr1 : List Probe) (rs : List RegionInfo)
    (hbad : badSettingsOf env.settings = [])
    (hdns : dnsStep env = (Except.ok d, tr1))
    (hreg : env.describeRegions = some rs)
    (hq : computeMaxQuota (quotaCodesOf families)
        (quotaResponses env (enumerate rs)) = 0) :
    (generate families env).1 = Except.error Fail.zeroQuota ∧
      ∀ r, Probe.describeAvailabilityZones r ∉ (generate families env).2 := by
  rw [generate_zero families env d tr1 rs hbad hdns hreg hq]
  refine ⟨rfl, fun r hr => ?_⟩
  have htr1 : tr1 = [] ∨ ∃ z, tr1 = [Probe.getHostedZone z] := by
    have h := dnsStep_trace_shape env
    rw [hdns] at h
    exact h
  rcases htr1 with rfl | ⟨z, rfl⟩ <;> simp at hr

/-- Claim C3. The key set of the final zone map equals the key set of the quota
table, which is exactly the sub-list of `providerRegions` with at least one
tracked positive quota row, and availability-zone probes are issued only for
those regions. -/
theorem zoneMap_matches_quota_regions (families : List (String × String)) (env : Env)
    (d : Option String) (tr1 : List Probe) (rs : List RegionInfo)
    (hbad : badSettingsOf env.settings = [])
    (hdns : dnsStep env = (Except.ok d, tr1))
    (hreg : env.describeRegions = some rs)
    (hq : ¬computeMaxQuota (quotaCodesOf families)
        (quotaResponses env (enumerate rs)) = 0) :
    ∃ vs, (generate families env).1 = Except.ok vs ∧
      vs.providerRegions = enumerate rs ∧
      vs.regions.map Prod.fst = vs.quotas.map Prod.fst ∧
      vs.quotas.map Prod.fst
        = vs.providerRegions.filter
            (fun r => !(filteredRows (quotaCodesOf families)
                (env.listServiceQuotas r)).isEmpty) ∧
      (∀ r, Probe.describeAvailabilityZones r ∈ (generate families env).2 →
        r ∈ vs.quotas.map Prod.fst) := by
  rw [generate_ok families env d tr1 rs hbad hdns hreg hq]
  refine ⟨_, rfl, rfl, ?_, ?_, ?_⟩
  · rw [List.map_map]
    rfl
  · exact keys_buildRegionQuotas_quotaResponses _ env _
  · intro r hr
    have htr1 : tr1 = [] ∨ ∃ z, tr1 = [Probe.getHostedZone z] := by
      have h := dnsStep_trace_shape env
      rw [hdns] at h
      exact h
    rcases htr1 with rfl | ⟨z, rfl⟩ <;>
      (simp at hr; rcases hr with ⟨b, hp⟩;
        exact List.mem_map.mpr ⟨(r, b), hp, rfl⟩)

/-- Claim C4. A settings document with any key outside the allow-list makes the
pipeline fail with `invalidSettings` naming exactly the offending keys, and
no remote probe of any kind is issued (the trace is empty). -/
theorem invalidSettings_fail_closed (families : List (String × String)) (env : Env)
    (h : ∃ k ∈ env.settings.map Prod.fst, k ∉ allowedSettings) :
    generate families env
        = (Except.error (Fail.invalidSettings (badSettingsOf env.settings)), []) ∧
      ∀ k, k ∈ badSettingsOf env.settings ↔
        (k ∈ env.settings.map Prod.fst ∧ k ∉ allowedSettings) := by
  have hbad : ¬badSettingsOf env.settings = [] := by
    rcases h with ⟨k, hk, hnot⟩
    intro he
    have hmem : k ∈ badSettingsOf env.settings := by
      unfold badSettingsOf
      rw [List.mem_filter]
      refine ⟨hk, ?_⟩
      simpa [List.elem_iff] using hnot
    rw [he] at hmem
    exact List.not_mem_nil k hmem
  constructor
  · unfold generate
    rw [if_neg hbad]
  · intro k
    unfold badSettingsOf
    rw [List.mem_filter]
    simp [List.elem_iff]

/-- Claim C8. When the hosted-zone lookup returns a name ending in the
root-label character, the snapshot's `dnsBaseName` is that name with exactly
the one trailing character removed. -/
theorem dnsBaseName_strips_trailing_dot (families : List (String × String))
    (env : Env) (z base : String) (rs : List RegionInfo)
    (hbad : badSettingsOf env.settings = [])
    (hz : env.settings.lookup "route53Zone" = some z) (hz' : ¬z = "")
    (hname : env.getHostedZone z = some (base ++ "."))
    (hreg : env.describeRegions = some rs)
    (hq : ¬computeMaxQuota (quotaCodesOf families)
        (quotaResponses env (enumerate rs)) = 0) :
    ∃ vs, (generate families env).1 = Except.ok vs ∧ vs.dnsBaseName = some base := by
  have hdns := dnsStep_ok_some env z (base ++ ".") hz hz' hname
  rw [sliceDropLast_append_dot] at hdns
  rw [generate_ok families env (some base) [Probe.getHostedZone z] rs hbad hdns hreg hq]
  exact ⟨_, rfl, rfl⟩

/-- Claim C9. The spot service-linked-role lookup never fails the pipeline: the
snapshot records the lookup's success as the `spotslr_exists` boolean and
the pipeline completes either way. -/
theorem spotRole_flag_recorded (families : List (String × String)) (env : Env)
    (d : Option String) (tr1 : List Probe) (rs : List RegionInfo)
    (hbad : badSettingsOf env.settings = [])
    (hdns : dnsStep env = (Except.ok d, tr1))
    (hreg : env.describeRegions = some rs)
    (hq : ¬computeMaxQuota (quotaCodesOf families)
        (quotaResponses env (enumerate rs)) = 0) :
    ∃ vs, (generate families env).1 = Except.ok vs ∧
      vs.spotslr_exists = env.getRoleOk := by
  rw [generate_ok families env d tr1 rs hbad hdns hreg hq]
  exact ⟨_, rfl, rfl⟩

/-- Claim C10. For every name returned by a successful hosted-zone lookup, the
stored `dnsBaseName` is that name with its final character removed
unconditionally, whether or not the name ends in a root-label `.`. -/
theorem dnsBaseName_drops_last_char (families : List (String × String))
    (env : Env) (z name : String) (rs : List RegionInfo)
    (hbad : badSettingsOf env.settings = [])
    (hz : env.settings.lookup "route53Zone" = some z) (hz' : ¬z = "")
    (hname : env.getHostedZone z = some name)
    (hreg : env.describeRegions = some rs)
    (hq : ¬computeMaxQuota (quotaCodesOf families)
        (quotaResponses env (enumerate rs)) = 0) :
    ∃ vs, (generate families env).1 = Except.ok vs ∧
      vs.dnsBaseName = some (String.mk name.data.dropLast) := by
  have hdns := dnsStep_ok_some env z name hz hz' hname
  rw [generate_ok families env (some (sliceDropLast name)) [Probe.getHostedZone z]
    rs hbad hdns hreg hq]
  exact ⟨_, rfl, rfl⟩

/-! ### Concrete fixtures -/

/-- Family catalog fixture: three families over two distinct quota codes. -/
def famFix : List (String × String) :=
  [("p3", "L-417A"), ("g4dn", "L-3819"), ("p4", "L-417A")]

def regionsFix : List RegionInfo :=
  [⟨"us-east-1", "opt-in-not-required"⟩, ⟨"ap-east-1", "not-opted-in"⟩,
   ⟨"us-west-2", "opted-in"⟩]

/-- A fully successful environment: a hosted zone ending in the root label,
one region with a tracked positive quota, a spot-role lookup that errors. -/
def envFix : Env :=
  { settings := [("awsProfile", "default"), ("route53Zone", "Z123")]
    getHostedZone := fun z => if z = "Z123" then some "example.com." else none
    describeRegions := some regionsFix
    listServiceQuotas := fun r =>
      if r = "us-east-1" then [⟨"L-417A", 8⟩, ⟨"L-9999", 5⟩, ⟨"L-3819", 0⟩] else []
    describeAvailabilityZones := fun r =>
      if r = "us-east-1" then [⟨"us-east-1a", "available"⟩, ⟨"us-east-1b", "impaired"⟩]
      else []
    getRoleOk := false }

/-- An environment whose hosted-zone name does not end in a root label. -/
def envNoDot : Env :=
  { envFix with
    getHostedZone := fun z => if z = "Z123" then some "npkfleet" else none }

/-- An environment where every region reports only zero quotas. -/
def envZero : Env :=
  { settings := []
    getHostedZone := fun _ => none
    describeRegions := some [⟨"us-east-1", "opt-in-not-required"⟩]
    listServiceQuotas := fun _ => [⟨"L-417A", 0⟩, ⟨"L-9999", 7⟩]
    describeAvailabilityZones := fun _ => [⟨"us-east-1a", "available"⟩]
    getRoleOk := true }

/-- An environment with an unknown settings key. -/
def envBadKeys : Env :=
  { envZero with
    settings := [("awsProfile", "x"), ("useCustomDNS", "true"), ("dnsNames", "a")] }

/-- An environment whose maximum tracked quota is 2: positive, below the
documented minimum threshold of 4. -/
def envBelowMin : Env :=
  { settings := []
    getHostedZone := fun _ => none
    describeRegions := some [⟨"us-east-1", "opt-in-not-required"⟩]
    listServiceQuotas := fun _ => [⟨"L-417A", 2⟩]
    describeAvailabilityZones := fun _ => [⟨"us-east-1a", "available"⟩]
    getRoleOk := true }

/-- An environment whose maximum tracked quota is exactly 1. -/
def envOne : Env :=
  { envBelowMin with listServiceQuotas := fun _ => [⟨"L-417A", 1⟩] }

/-! ### Claim witnesses and code-behaviour theorems -/

/-- Witness for C2: with every tracked quota zero the pipeline stops with
the zero-quota outcome and no availability-zone probe in the trace. -/
theorem zeroQuota_stops_pipeline_witness :
    (generate famFix envZero).1 = Except.error Fail.zeroQuota ∧
      ∀ r, Probe.describeAvailabilityZones r ∉ (generate famFix envZero).2 :=
  zeroQuota_stops_pipeline famFix envZero none []
    [⟨"us-east-1", "opt-in-not-required"⟩] rfl rfl rfl (by decide)

/-- Witness for C3 on the successful fixture environment. -/
theorem zoneMap_matches_quota_regions_witness :
    ∃ vs, (generate famFix envFix).1 = Except.ok vs ∧
      vs.providerRegions = enumerate regionsFix ∧
      vs.regions.map Prod.fst = vs.quotas.map Prod.fst ∧
      vs.quotas.map Prod.fst
        = vs.providerRegions.filter
            (fun r => !(filteredRows (quotaCodesOf famFix)
                (envFix.listServiceQuotas r)).isEmpty) ∧
      (∀ r, Probe.describeAvailabilityZones r ∈ (generate famFix envFix).2 →
        r ∈ vs.quotas.map Prod.fst) :=
  zoneMap_matches_quota_regions famFix envFix (some "example.com")
    [Probe.getHostedZone "Z123"] regionsFix rfl rfl rfl (by decide)

/-- Witness for C4: a v2-era settings file is rejected with exactly its
unknown keys and an empty probe trace. -/
theorem invalidSettings_fail_closed_witness :
    (generate famFix envBadKeys
        = (Except.error (Fail.invalidSettings (badSettingsOf envBadKeys.settings)), []) ∧
      ∀ k, k ∈ badSettingsOf envBadKeys.settings ↔
        (k ∈ envBadKeys.settings.map Prod.fst ∧ k ∉ allowedSettings)) :=
  invalidSettings_fail_closed famFix envBadKeys
    ⟨"useCustomDNS", by decide, by decide⟩

/-- Witness for C8: zone name `"example.com."` yields
`dnsBaseName = "example.com"`. -/
theorem dnsBaseName_strips_trailing_dot_witness :
    ∃ vs, (generate famFix envFix).1 = Except.ok vs ∧
      vs.dnsBaseName = some "example.com" :=
  dnsBaseName_strips_trailing_dot famFix envFix "Z123" "example.com" regionsFix
    rfl rfl (by decide) (by decide) rfl (by decide)

/-- Witness for C9: the role lookup errors in the fixture and the snapshot
records `spotslr_exists = false` while the pipeline completes. -/
theorem spotRole_flag_recorded_witness :
    ∃ vs, (generate famFix envFix).1 = Except.ok vs ∧
      vs.spotslr_exists = envFix.getRoleOk :=
  spotRole_flag_recorded famFix envFix (some "example.com")
    [Probe.getHostedZone "Z123"] regionsFix rfl rfl rfl (by decide)

/-- Witness for C10: zone name `"npkfleet"`, which does not end in a root
label, still loses its final character. -/
theorem dnsBaseName_drops_last_char_witness :
    ∃ vs, (generate famFix envNoDot).1 = Except.ok vs ∧
      vs.dnsBaseName = some (String.mk ("npkfleet".data.dropLast)) :=
  dnsBaseName_drops_last_char famFix envNoDot "Z123" "npkfleet" regionsFix
    rfl rfl (by decide) rfl rfl (by decide)

/-- Claim C5 (code behaviour at the failing input).  With a maximum tracked
quota of 2 — positive but below the minimum threshold of 4 that the source's
own zero-quota message documents as required — `generate` does not fail: it
proceeds through zone probing and produces a full snapshot. -/
theorem belowMinimumQuota_not_enforced :
    computeMaxQuota (quotaCodesOf famFix)
        (quotaResponses envBelowMin
          (enumerate [⟨"us-east-1", "opt-in-not-required"⟩])) = 2 ∧
      (0 : ℚ) < 2 ∧ (2 : ℚ) < 4 ∧
      (generate famFix envBelowMin).1
        = Except.ok
            { dnsBaseName := none
              providerRegions := ["us-east-1"]
              quotas := [("us-east-1", [("L-417A", 2)])]
              regions := [("us-east-1", ["us-east-1a"])]
              spotslr_exists := true } := by
  refine ⟨by decide, by decide, by decide, rfl⟩

/-- Claim C6 (code behaviour at the failing input).  With a maximum tracked
quota of exactly 1, `generate` proceeds to a full snapshot without consulting
any confirmation input: no confirmation capability exists anywhere in its
environment interactions (the `Env` oracle and the probe trace contain none),
against the documented requirement of an explicit affirmative confirmation. -/
theorem singleQuota_confirmation_not_required :
    computeMaxQuota (quotaCodesOf famFix)
        (quotaResponses envOne
          (enumerate [⟨"us-east-1", "opt-in-not-required"⟩])) = 1 ∧
      (generate famFix envOne).1
        = Except.ok
            { dnsBaseName := none
              providerRegions := ["us-east-1"]
              quotas := [("us-east-1", [("L-417A", 1)])]
              regions := [("us-east-1", ["us-east-1a"])]
              spotslr_exists := true } := by
  refine ⟨by decide, rfl⟩

end NPK
